import Mathlib

/-!
Verification development for the payroll backend: a shallow embedding of the
payroll processing, mark-as-paid and reporting logic, with theorems checking
the specification's claims against it.  Monetary amounts are modelled as
rationals (the store holds double-precision decimals; the arithmetic that the
controllers perform on them is plain addition/subtraction/division).
-/

namespace PayrollSystem

inductive EmployeeStatus
  | ACTIVE
  | INACTIVE
deriving DecidableEq

inductive EmployeeType
  | TEACHER
  | OFFICER
  | STAFF
deriving DecidableEq

inductive PayrollStatus
  | PAID
  | PENDING
deriving DecidableEq

/-- Employee record: the compensation-defining fields used by payroll
processing (controller `processPayroll`). -/
structure Employee where
  id : String
  name : String
  designation : String
  employeeType : EmployeeType
  status : EmployeeStatus
  basicSalary : ℚ
  houseRent : ℚ
  medical : ℚ
  transport : ℚ
  education : ℚ
  special : ℚ
  tax : ℚ
  providentFund : ℚ
  insurance : ℚ
  loan : ℚ
  other : ℚ
deriving DecidableEq

/-- Payroll record as persisted by the payroll controller: snapshot of the
employee's salary fields plus computed gross/net, a status and an optional
paid timestamp (modelled as a natural number clock). -/
structure Payroll where
  id : String
  employeeId : String
  month : Nat
  year : Nat
  basicSalary : ℚ
  houseRent : ℚ
  medical : ℚ
  transport : ℚ
  education : ℚ
  special : ℚ
  tax : ℚ
  providentFund : ℚ
  insurance : ℚ
  loan : ℚ
  other : ℚ
  grossSalary : ℚ
  netSalary : ℚ
  status : PayrollStatus
  paidAt : Option Nat
deriving DecidableEq

/-- Per-employee skip/error entry pushed by `processPayroll`. -/
structure SkipEntry where
  employeeId : String
  employeeName : String
  message : String
deriving DecidableEq

def alreadyProcessedMsg : String := "Payroll already processed for this period"

/-- The payroll record built for one employee inside `processPayroll`:
`totalAllowances`/`totalDeductions` sums, `grossSalary`, `netSalary`, all
salary fields copied from the employee, status PENDING, no paid timestamp. -/
def mkPayroll (e : Employee) (month year : Nat) : Payroll :=
  let totalAllowances := e.houseRent + e.medical + e.transport + e.education + e.special
  let totalDeductions := e.tax + e.providentFund + e.insurance + e.loan + e.other
  let grossSalary := e.basicSalary + totalAllowances
  let netSalary := grossSalary - totalDeductions
  { id := ""
    employeeId := e.id
    month := month
    year := year
    basicSalary := e.basicSalary
    houseRent := e.houseRent
    medical := e.medical
    transport := e.transport
    education := e.education
    special := e.special
    tax := e.tax
    providentFund := e.providentFund
    insurance := e.insurance
    loan := e.loan
    other := e.other
    grossSalary := grossSalary
    netSalary := netSalary
    status := PayrollStatus.PENDING
    paidAt := none }

/-- `prisma.payroll.findUnique` on the `(employeeId, month, year)` unique
triple, reduced to an existence test over the stored records. -/
def hasPayrollFor (db : List Payroll) (employeeId : String) (month year : Nat) : Bool :=
  db.any fun p => p.employeeId == employeeId && p.month == month && p.year == year

/-- The per-employee loop of the controller `processPayroll`: for each
employee, skip (with an error entry) when a record for the period exists,
otherwise create the new record.  Returns the final store, the created
records in order, and the skip entries in order. -/
def processLoop (month year : Nat) :
    List Employee → List Payroll → List Payroll × List Payroll × List SkipEntry
  | [], db => (db, [], [])
  | e :: rest, db =>
    if hasPayrollFor db e.id month year then
      let r := processLoop month year rest db
      (r.1, r.2.1, ⟨e.id, e.name, alreadyProcessedMsg⟩ :: r.2.2)
    else
      let newRec := mkPayroll e month year
      let r := processLoop month year rest (db ++ [newRec])
      (r.1, newRec :: r.2.1, r.2.2)

/-- Employee selection of `processPayroll`: status ACTIVE, restricted to the
supplied id list only when that list is present and non-empty (the JS guard
is `employeeIds && employeeIds.length > 0`). -/
def selectEmployees (employees : List Employee) (employeeIds : Option (List String)) :
    List Employee :=
  match employeeIds with
  | some ids =>
    if 0 < ids.length then
      employees.filter fun e => e.status == EmployeeStatus.ACTIVE && ids.contains e.id
    else
      employees.filter fun e => e.status == EmployeeStatus.ACTIVE
  | none => employees.filter fun e => e.status == EmployeeStatus.ACTIVE

inductive ProcessError
  | NoActiveEmployees
deriving DecidableEq

structure ProcessResult where
  db : List Payroll
  processed : List Payroll
  errors : List SkipEntry
deriving DecidableEq

/-- Controller `processPayroll` (payroll controller): select the target
employees, fail when none, otherwise run the per-employee loop. -/
def processPayroll (month year : Nat) (employeeIds : Option (List String))
    (employees : List Employee) (db : List Payroll) : Except ProcessError ProcessResult :=
  let selected := selectEmployees employees employeeIds
  if selected.length == 0 then
    Except.error ProcessError.NoActiveEmployees
  else
    let r := processLoop month year selected db
    Except.ok ⟨r.1, r.2.1, r.2.2⟩

/-- The record shape `PayrollService.processPayroll` passes to its `create`
call (the repository's Payroll table does not have all of these columns, but
this is what the code would persist if the call were ever reached). -/
structure ServicePayroll where
  employeeId : String
  employeeName : String
  employeeType : EmployeeType
  designation : String
  month : Nat
  year : Nat
  basicSalary : ℚ
  allowances : List (String × ℚ)
  deductions : List (String × ℚ)
  grossSalary : ℚ
  netSalary : ℚ
  status : PayrollStatus
  paidAt : Option Nat
deriving DecidableEq

inductive ServiceError
  | AlreadyProcessed
  | EmployeeNotFound
  | TypeErrorUndefinedValues
deriving DecidableEq

/-- The `allowances` property access on an employee fetched from this
repository's store: the Employee schema has flat allowance columns
(houseRent, medical, ...) and no `allowances` object, so the access yields
`undefined` for every stored employee — modelled as `none`. -/
def employeeAllowancesProp (_ : Employee) : Option (List (String × ℚ)) := none

/-- The `deductions` property access on an employee fetched from this
repository's store: the Employee schema has no `deductions` object, so the
access yields `undefined` — modelled as `none`. -/
def employeeDeductionsProp (_ : Employee) : Option (List (String × ℚ)) := none

/-- `Object.values(x)`: throws a TypeError when `x` is `undefined`,
otherwise returns the values of the object. -/
def objectValues (x : Option (List (String × ℚ))) : Except ServiceError (List ℚ) :=
  match x with
  | none => Except.error ServiceError.TypeErrorUndefinedValues
  | some kvs => Except.ok (kvs.map Prod.snd)

/-- `PayrollService.calculateGrossSalary`:
`Object.values(employee.allowances).reduce((sum, val) => sum + Number(val), 0)`
added to the basic salary.  On a schema-conformant employee the
`Object.values` call throws. -/
def calculateGrossSalary (e : Employee) : Except ServiceError ℚ := do
  let vals ← objectValues (employeeAllowancesProp e)
  return e.basicSalary + vals.foldl (fun s v => s + v) 0

/-- `PayrollService.calculateTotalDeductions`: the reduce over
`Object.values(employee.deductions)`. -/
def calculateTotalDeductions (e : Employee) : Except ServiceError ℚ := do
  let vals ← objectValues (employeeDeductionsProp e)
  return vals.foldl (fun s v => s + v) 0

/-- `PayrollService.processPayroll`: throws when a record for the period
exists or the employee is missing; otherwise computes gross/net via the
private calculators — which throw on every employee the store can contain —
and only then would create the payroll record with status PAID and `paidAt`
set to the current time. -/
def serviceProcessPayroll (employeeId : String) (month year : Nat)
    (employees : List Employee) (db : List ServicePayroll) (now : Nat) :
    Except ServiceError (List ServicePayroll × ServicePayroll) :=
  if db.any (fun p => p.employeeId == employeeId && p.month == month && p.year == year) then
    Except.error ServiceError.AlreadyProcessed
  else
    match employees.find? (fun e => e.id == employeeId) with
    | none => Except.error ServiceError.EmployeeNotFound
    | some e => do
      let grossSalary ← calculateGrossSalary e
      let totalDeductions ← calculateTotalDeductions e
      let netSalary := grossSalary - totalDeductions
      let created : ServicePayroll :=
        { employeeId := employeeId
          employeeName := e.name
          employeeType := e.employeeType
          designation := e.designation
          month := month
          year := year
          basicSalary := e.basicSalary
          allowances := (employeeAllowancesProp e).getD []
          deductions := (employeeDeductionsProp e).getD []
          grossSalary := grossSalary
          netSalary := netSalary
          status := PayrollStatus.PAID
          paidAt := some now }
      return (db ++ [created], created)

inductive PayError
  | NotFound
  | AlreadyPaid
deriving DecidableEq

/-- The update applied to the targeted record by `markPayrollAsPaid`. -/
def payUpdate (now : Nat) (p : Payroll) : Payroll :=
  { p with status := PayrollStatus.PAID, paidAt := some now }

/-- Controller `markPayrollAsPaid`: 404 when the id is unknown, 400 when the
record is already PAID, otherwise update status and paid timestamp and
return the updated record. -/
def markPayrollAsPaid (id : String) (now : Nat) (db : List Payroll) :
    Except PayError (List Payroll × Payroll) :=
  match db.find? (fun p => p.id == id) with
  | none => Except.error PayError.NotFound
  | some p =>
    if p.status = PayrollStatus.PAID then
      Except.error PayError.AlreadyPaid
    else
      Except.ok (db.map (fun q => if q.id == id then payUpdate now q else q), payUpdate now p)

inductive BulkError
  | IdsRequired
deriving DecidableEq

/-- The `updateMany` where-clause of `bulkMarkAsPaid`:
`id ∈ payrollIds` and status PENDING. -/
def bulkEligible (ids : List String) (p : Payroll) : Bool :=
  ids.contains p.id && p.status == PayrollStatus.PENDING

/-- The per-record effect of the bulk `updateMany`. -/
def bulkTransition (ids : List String) (now : Nat) (p : Payroll) : Payroll :=
  if bulkEligible ids p then payUpdate now p else p

/-- Controller `bulkMarkAsPaid`: 400 when the id list is absent or empty,
otherwise one `updateMany` setting status PAID and a shared paid timestamp on
every stored record matching the where-clause, returning the matched count. -/
def bulkMarkAsPaid (payrollIds : Option (List String)) (now : Nat) (db : List Payroll) :
    Except BulkError (List Payroll × Nat) :=
  match payrollIds with
  | none => Except.error BulkError.IdsRequired
  | some ids =>
    if ids.length == 0 then
      Except.error BulkError.IdsRequired
    else
      Except.ok (db.map (bulkTransition ids now), (db.filter (bulkEligible ids)).length)

/-- One entry of the monthly summary report. -/
structure MonthEntry where
  month : Nat
  totalEmployees : Nat
  totalBasic : ℚ
  totalGross : ℚ
  totalNet : ℚ
deriving DecidableEq

/-- Controller `getMonthlySummary` (reports controller): for each month 1..12
of the given year, the record count and the reduced basic/gross/net totals of
that month's payroll records. -/
def getMonthlySummary (year : Nat) (db : List Payroll) : List MonthEntry :=
  (List.range 12).map fun i =>
    let month := i + 1
    let payrolls := db.filter fun p => p.month == month && p.year == year
    { month := month
      totalEmployees := payrolls.length
      totalBasic := payrolls.foldl (fun s p => s + p.basicSalary) 0
      totalGross := payrolls.foldl (fun s p => s + p.grossSalary) 0
      totalNet := payrolls.foldl (fun s p => s + p.netSalary) 0 }

/-- A payroll row joined with its employee's type, as fetched by
`getSalaryReportByType`. -/
structure TypedPayroll where
  employeeType : EmployeeType
  basicSalary : ℚ
  houseRent : ℚ
  medical : ℚ
  transport : ℚ
  education : ℚ
  special : ℚ
  tax : ℚ
  providentFund : ℚ
  insurance : ℚ
  loan : ℚ
  other : ℚ
  grossSalary : ℚ
  netSalary : ℚ
deriving DecidableEq

/-- One per-type group of `getSalaryReportByType`. -/
structure TypeGroup where
  employeeType : EmployeeType
  count : Nat
  totalBasicSalary : ℚ
  totalAllowances : ℚ
  totalDeductions : ℚ
  totalGrossSalary : ℚ
  totalNetSalary : ℚ
deriving DecidableEq

def emptyTypeGroup (t : EmployeeType) : TypeGroup :=
  ⟨t, 0, 0, 0, 0, 0, 0⟩

/-- The per-row accumulation of `getSalaryReportByType`. -/
def addRowToTypeGroup (g : TypeGroup) (p : TypedPayroll) : TypeGroup :=
  { g with
    count := g.count + 1
    totalBasicSalary := g.totalBasicSalary + p.basicSalary
    totalAllowances := g.totalAllowances +
      (p.houseRent + p.medical + p.transport + p.education + p.special)
    totalDeductions := g.totalDeductions +
      (p.tax + p.providentFund + p.insurance + p.loan + p.other)
    totalGrossSalary := g.totalGrossSalary + p.grossSalary
    totalNetSalary := g.totalNetSalary + p.netSalary }

/-- Insertion into the `Map` keyed by employee type: update the existing
group, or append a fresh group at the end (JS `Map` preserves first-encounter
insertion order). -/
def typeUpsert : List TypeGroup → TypedPayroll → List TypeGroup
  | [], p => [addRowToTypeGroup (emptyTypeGroup p.employeeType) p]
  | g :: rest, p =>
    if g.employeeType = p.employeeType then
      addRowToTypeGroup g p :: rest
    else
      g :: typeUpsert rest p

/-- Controller `getSalaryReportByType` (report controller): group the fetched
payroll rows by employee type with running sums. -/
def getSalaryReportByType (rows : List TypedPayroll) : List TypeGroup :=
  rows.foldl typeUpsert []

/-- A payroll row joined with its employee's designation, as fetched by
`getDesignationReport`. -/
structure DesigRow where
  designation : String
  basicSalary : ℚ
  grossSalary : ℚ
  netSalary : ℚ
deriving DecidableEq

/-- One per-designation group of `getDesignationReport`. -/
structure DesigGroup where
  designation : String
  count : Nat
  totalBasicSalary : ℚ
  totalGrossSalary : ℚ
  totalNetSalary : ℚ
  averageSalary : ℚ
deriving DecidableEq

def emptyDesigGroup (d : String) : DesigGroup :=
  ⟨d, 0, 0, 0, 0, 0⟩

def addRowToDesigGroup (g : DesigGroup) (p : DesigRow) : DesigGroup :=
  { g with
    count := g.count + 1
    totalBasicSalary := g.totalBasicSalary + p.basicSalary
    totalGrossSalary := g.totalGrossSalary + p.grossSalary
    totalNetSalary := g.totalNetSalary + p.netSalary }

def desigUpsert : List DesigGroup → DesigRow → List DesigGroup
  | [], p => [addRowToDesigGroup (emptyDesigGroup p.designation) p]
  | g :: rest, p =>
    if g.designation = p.designation then
      addRowToDesigGroup g p :: rest
    else
      g :: desigUpsert rest p

/-- Controller `getDesignationReport` (report controller): group the payroll
rows by designation, then derive `averageSalary = totalNetSalary / count` on
each materialized group. -/
def getDesignationReport (rows : List DesigRow) : List DesigGroup :=
  (rows.foldl desigUpsert []).map fun g =>
    { g with averageSalary := g.totalNetSalary / (g.count : ℚ) }

/-- The spec's scenario employee: basicSalary 80000, allowances
{20000, 5000, 3000, 2000, 5000}, deductions {12000, 8000, 2000, 0, 0}. -/
def scenarioEmployee : Employee :=
  { id := "emp-1"
    name := "Dr. Sarah Johnson"
    designation := "Professor"
    employeeType := EmployeeType.TEACHER
    status := EmployeeStatus.ACTIVE
    basicSalary := 80000
    houseRent := 20000
    medical := 5000
    transport := 3000
    education := 2000
    special := 5000
    tax := 12000
    providentFund := 8000
    insurance := 2000
    loan := 0
    other := 0 }

/-- An inactive employee, for the empty-selection scenario. -/
def inactiveEmployee : Employee :=
  { scenarioEmployee with id := "emp-2", name := "Inactive", status := EmployeeStatus.INACTIVE }

/-- The record `processPayroll` creates for the scenario employee. -/
def scenarioRecord : Payroll := mkPayroll scenarioEmployee 3 2025

/-- Result of the first `processPayroll` run on the scenario employee. -/
def scenarioResult : ProcessResult := ⟨[scenarioRecord], [scenarioRecord], []⟩

/-- A single-row input for the designation report. -/
def c9Row : DesigRow := ⟨"Professor", 80000, 115000, 93000⟩

/-- The group the designation report materializes for `c9Row`. -/
def c9Group : DesigGroup :=
  { addRowToDesigGroup (emptyDesigGroup "Professor") c9Row with
    averageSalary := (addRowToDesigGroup (emptyDesigGroup "Professor") c9Row).totalNetSalary /
      ((addRowToDesigGroup (emptyDesigGroup "Professor") c9Row).count : ℚ) }

/-- A stored PENDING payroll record. -/
def pendingPayroll : Payroll := { mkPayroll scenarioEmployee 3 2025 with id := "p1" }

/-- A stored payroll record that is already PAID. -/
def paidPayroll : Payroll :=
  { mkPayroll scenarioEmployee 2 2025 with
    id := "p2", status := PayrollStatus.PAID, paidAt := some 1 }

/-- A store holding one PENDING and one PAID record. -/
def payDb : List Payroll := [pendingPayroll, paidPayroll]

/-! ## Lemmas about the processing loop -/

theorem hasPayrollFor_append (db l : List Payroll) (i : String) (m y : Nat)
    (h : hasPayrollFor db i m y = true) : hasPayrollFor (db ++ l) i m y = true := by
  simp only [hasPayrollFor] at h ⊢
  simp [List.any_append, h]

theorem processLoop_db_extends (m y : Nat) (es : List Employee) (db : List Payroll) :
    ∃ l, (processLoop m y es db).1 = db ++ l := by
  induction es generalizing db with
  | nil => exact ⟨[], (List.append_nil db).symm⟩
  | cons e rest ih =>
    by_cases h : hasPayrollFor db e.id m y = true
    · simpa only [processLoop, h, if_true] using ih db
    · obtain ⟨l, hl⟩ := ih (db ++ [mkPayroll e m y])
      exact ⟨mkPayroll e m y :: l, by
        simp only [processLoop, h, if_false, Bool.false_eq_true, hl, List.append_assoc,
          List.singleton_append]⟩

theorem processLoop_covers (m y : Nat) (es : List Employee) (db : List Payroll)
    (e : Employee) (he : e ∈ es) :
    hasPayrollFor (processLoop m y es db).1 e.id m y = true := by
  induction es generalizing db with
  | nil => cases he
  | cons a rest ih =>
    rcases List.mem_cons.mp he with rfl | hmem
    · by_cases h : hasPayrollFor db e.id m y = true
      · obtain ⟨l, hl⟩ := processLoop_db_extends m y rest db
        simp only [processLoop, h, if_true, hl]
        exact hasPayrollFor_append db l e.id m y h
      · have hnew : hasPayrollFor (db ++ [mkPayroll e m y]) e.id m y = true := by
          simp [hasPayrollFor, List.any_append, mkPayroll]
        obtain ⟨l, hl⟩ := processLoop_db_extends m y rest (db ++ [mkPayroll e m y])
        simp only [processLoop, h, if_false, Bool.false_eq_true, hl]
        exact hasPayrollFor_append _ l e.id m y hnew
    · by_cases h : hasPayrollFor db a.id m y = true
      · simpa only [processLoop, h, if_true] using ih db hmem
      · simpa only [processLoop, h, if_false, Bool.false_eq_true] using
          ih (db ++ [mkPayroll a m y]) hmem

theorem processLoop_all_skipped (m y : Nat) (es : List Employee) (db : List Payroll)
    (h : ∀ e ∈ es, hasPayrollFor db e.id m y = true) :
    processLoop m y es db =
      (db, [], es.map fun e => ⟨e.id, e.name, alreadyProcessedMsg⟩) := by
  induction es with
  | nil => rfl
  | cons e rest ih =>
    have he : hasPayrollFor db e.id m y = true := h e (List.mem_cons_self e rest)
    have hrest := ih fun a ha => h a (List.mem_cons_of_mem e ha)
    simp only [processLoop, he, if_true, hrest, List.map_cons]

theorem processLoop_processed_shape (m y : Nat) (es : List Employee) (db : List Payroll)
    (p : Payroll) (hp : p ∈ (processLoop m y es db).2.1) :
    ∃ e ∈ es, p = mkPayroll e m y := by
  induction es generalizing db with
  | nil => cases hp
  | cons e rest ih =>
    by_cases h : hasPayrollFor db e.id m y = true
    · simp only [processLoop, h, if_true] at hp
      obtain ⟨a, ha, hpa⟩ := ih db hp
      exact ⟨a, List.mem_cons_of_mem e ha, hpa⟩
    · simp only [processLoop, h, if_false, Bool.false_eq_true, List.mem_cons] at hp
      rcases hp with rfl | hp
      · exact ⟨e, List.mem_cons_self e rest, rfl⟩
      · obtain ⟨a, ha, hpa⟩ := ih (db ++ [mkPayroll e m y]) hp
        exact ⟨a, List.mem_cons_of_mem e ha, hpa⟩

/-- Unpack a successful `processPayroll` run into its loop components. -/
theorem processPayroll_ok (m y : Nat) (ids : Option (List String))
    (emps : List Employee) (db : List Payroll) (r : ProcessResult)
    (h : processPayroll m y ids emps db = Except.ok r) :
    (selectEmployees emps ids).length ≠ 0 ∧
      r = ⟨(processLoop m y (selectEmployees emps ids) db).1,
           (processLoop m y (selectEmployees emps ids) db).2.1,
           (processLoop m y (selectEmployees emps ids) db).2.2⟩ := by
  by_cases hsel : (selectEmployees emps ids).length == 0
  · simp only [processPayroll, hsel, if_true] at h
    cases h
  · simp only [processPayroll, hsel, if_false, Bool.false_eq_true, Except.ok.injEq] at h
    exact ⟨by simpa using hsel, h.symm⟩

/-! ## Claim theorems -/

/-- C1: every Payroll record created by `processPayroll` has
`grossSalary = basicSalary + houseRent + medical + transport + education + special`
and `netSalary = grossSalary - (tax + providentFund + insurance + loan + other)`,
and is a snapshot built from a selected employee's field values at processing
time, with no floor on the net amount. -/
theorem processPayroll_salary_formula (m y : Nat) (ids : Option (List String))
    (emps : List Employee) (db : List Payroll) (r : ProcessResult)
    (h : processPayroll m y ids emps db = Except.ok r)
    (p : Payroll) (hp : p ∈ r.processed) :
    p.grossSalary =
        p.basicSalary + p.houseRent + p.medical + p.transport + p.education + p.special ∧
      p.netSalary =
        p.grossSalary - (p.tax + p.providentFund + p.insurance + p.loan + p.other) ∧
      ∃ e ∈ selectEmployees emps ids,
        p = mkPayroll e m y ∧ p.basicSalary = e.basicSalary ∧ p.houseRent = e.houseRent ∧
          p.medical = e.medical ∧ p.transport = e.transport ∧ p.education = e.education ∧
          p.special = e.special ∧ p.tax = e.tax ∧ p.providentFund = e.providentFund ∧
          p.insurance = e.insurance ∧ p.loan = e.loan ∧ p.other = e.other ∧
          p.employeeId = e.id := by
  obtain ⟨-, hr⟩ := processPayroll_ok m y ids emps db r h
  have hp' : p ∈ (processLoop m y (selectEmployees emps ids) db).2.1 := by
    rw [hr] at hp; exact hp
  obtain ⟨e, he, rfl⟩ := processLoop_processed_shape m y _ db p hp'
  refine ⟨?_, ?_, e, he, rfl, ?_⟩
  · simp only [mkPayroll]; ring
  · simp only [mkPayroll]
  · simp [mkPayroll]

/-- C1 witness: the spec's scenario (basic 80000, allowances
{20000, 5000, 3000, 2000, 5000}, deductions {12000, 8000, 2000, 0, 0}) run
through `processPayroll` satisfies the formulas and yields gross 115000 and
net 93000. -/
theorem processPayroll_salary_formula_check :
    processPayroll 3 2025 none [scenarioEmployee] [] = Except.ok scenarioResult ∧
      scenarioRecord ∈ scenarioResult.processed ∧
      (scenarioRecord.grossSalary =
          scenarioRecord.basicSalary + scenarioRecord.houseRent + scenarioRecord.medical +
            scenarioRecord.transport + scenarioRecord.education + scenarioRecord.special ∧
        scenarioRecord.netSalary =
          scenarioRecord.grossSalary - (scenarioRecord.tax + scenarioRecord.providentFund +
            scenarioRecord.insurance + scenarioRecord.loan + scenarioRecord.other) ∧
        ∃ e ∈ selectEmployees [scenarioEmployee] none,
          scenarioRecord = mkPayroll e 3 2025 ∧
            scenarioRecord.basicSalary = e.basicSalary ∧
            scenarioRecord.houseRent = e.houseRent ∧
            scenarioRecord.medical = e.medical ∧
            scenarioRecord.transport = e.transport ∧
            scenarioRecord.education = e.education ∧
            scenarioRecord.special = e.special ∧
            scenarioRecord.tax = e.tax ∧
            scenarioRecord.providentFund = e.providentFund ∧
            scenarioRecord.insurance = e.insurance ∧
            scenarioRecord.loan = e.loan ∧
            scenarioRecord.other = e.other ∧
            scenarioRecord.employeeId = e.id) ∧
      scenarioRecord.grossSalary = 115000 ∧ scenarioRecord.netSalary = 93000 := by
  refine ⟨rfl, List.mem_singleton.mpr rfl,
    processPayroll_salary_formula 3 2025 none [scenarioEmployee] [] scenarioResult rfl
      scenarioRecord (List.mem_singleton.mpr rfl), ?_, ?_⟩
  · norm_num [scenarioRecord, mkPayroll, scenarioEmployee]
  · norm_num [scenarioRecord, mkPayroll, scenarioEmployee]

/-- C8: when the employee selection (ACTIVE, optionally restricted to the
supplied id set) is empty, `processPayroll` fails with the
no-active-employees error; no state is produced, so no Payroll record is
created. -/
theorem processPayroll_empty_selection (m y : Nat) (ids : Option (List String))
    (emps : List Employee) (db : List Payroll)
    (h : selectEmployees emps ids = []) :
    processPayroll m y ids emps db = Except.error ProcessError.NoActiveEmployees := by
  simp only [processPayroll, h, List.length_nil]
  rfl

/-- C8 witness: processing period (5, 2030) with no ACTIVE employee fails
with the no-active-employees error. -/
theorem processPayroll_empty_selection_check :
    selectEmployees [inactiveEmployee] none = [] ∧
      processPayroll 5 2030 none [inactiveEmployee] [] =
        Except.error ProcessError.NoActiveEmployees :=
  ⟨rfl, processPayroll_empty_selection 5 2030 none [inactiveEmployee] [] rfl⟩

/-- C10: an `employeeIds` list that is present but empty is ignored by the
selection guard (`employeeIds && employeeIds.length > 0`), so processing with
`some []` behaves exactly like processing with no id list: all ACTIVE
employees are selected and processed. -/
theorem processPayroll_empty_ids_like_none (m y : Nat)
    (emps : List Employee) (db : List Payroll) :
    processPayroll m y (some []) emps db = processPayroll m y none emps db := rfl

/-- C3: `processPayroll` is idempotent per period — immediately re-running a
successful run for the same month/year creates zero new Payroll records (the
store is unchanged, nothing is processed) and every employee selected in the
second run is reported in the errors list with the "already processed"
reason. -/
theorem processPayroll_idempotent (m y : Nat) (ids : Option (List String))
    (emps : List Employee) (db : List Payroll) (r : ProcessResult)
    (h : processPayroll m y ids emps db = Except.ok r) :
    processPayroll m y ids emps r.db =
      Except.ok ⟨r.db, [],
        (selectEmployees emps ids).map fun e => ⟨e.id, e.name, alreadyProcessedMsg⟩⟩ := by
  obtain ⟨hne, hr⟩ := processPayroll_ok m y ids emps db r h
  have hdb : r.db = (processLoop m y (selectEmployees emps ids) db).1 := by rw [hr]
  have hcov : ∀ e ∈ selectEmployees emps ids, hasPayrollFor r.db e.id m y = true := by
    intro e he
    rw [hdb]
    exact processLoop_covers m y _ db e he
  have hskip := processLoop_all_skipped m y (selectEmployees emps ids) r.db hcov
  have hsel : ((selectEmployees emps ids).length == 0) = false := by
    simpa using hne
  simp only [processPayroll, hsel, if_false, Bool.false_eq_true, hskip]

/-- C3 witness: a concrete second run after a successful first run on the
scenario employee creates nothing and reports the employee as skipped. -/
theorem processPayroll_idempotent_check :
    processPayroll 3 2025 none [scenarioEmployee] [] = Except.ok scenarioResult ∧
      processPayroll 3 2025 none [scenarioEmployee] scenarioResult.db =
        Except.ok ⟨scenarioResult.db, [],
          (selectEmployees [scenarioEmployee] none).map fun e =>
            ⟨e.id, e.name, alreadyProcessedMsg⟩⟩ :=
  ⟨rfl, processPayroll_idempotent 3 2025 none [scenarioEmployee] [] scenarioResult rfl⟩

/-- C2: every Payroll persisted by payroll processing when no record exists
for the (employee, month, year) triple has status PENDING and no paid
timestamp, across every processing entry point: the payroll controller
creates only PENDING records with `paidAt` unset, and the
`PayrollService.processPayroll` entry point never persists a record at all —
on this repository's Employee schema (flat allowance/deduction columns, no
`allowances`/`deductions` objects) its `calculateGrossSalary` throws a
TypeError on `Object.values(undefined)` before the create is reached, so it
never returns successfully. -/
theorem processPayroll_creates_pending :
    (∀ (m y : Nat) (ids : Option (List String)) (emps : List Employee)
        (db : List Payroll) (r : ProcessResult),
      processPayroll m y ids emps db = Except.ok r →
        ∀ p ∈ r.processed, p.status = PayrollStatus.PENDING ∧ p.paidAt = none) ∧
    (∀ (i : String) (m y : Nat) (emps : List Employee)
        (db : List ServicePayroll) (now : Nat) (out : List ServicePayroll × ServicePayroll),
      serviceProcessPayroll i m y emps db now ≠ Except.ok out) := by
  constructor
  · intro m y ids emps db r h p hp
    obtain ⟨-, hr⟩ := processPayroll_ok m y ids emps db r h
    have hp' : p ∈ (processLoop m y (selectEmployees emps ids) db).2.1 := by
      rw [hr] at hp; exact hp
    obtain ⟨e, -, rfl⟩ := processLoop_processed_shape m y _ db p hp'
    exact ⟨rfl, rfl⟩
  · intro i m y emps db now out h
    unfold serviceProcessPayroll at h
    by_cases hex : (db.any fun p => p.employeeId == i && p.month == m && p.year == y) = true
    · rw [if_pos hex] at h
      cases h
    · rw [if_neg hex] at h
      cases hfind : emps.find? fun e => e.id == i with
      | none => rw [hfind] at h; cases h
      | some e =>
        rw [hfind] at h
        simp [calculateGrossSalary, objectValues, employeeAllowancesProp,
          Bind.bind, Except.bind] at h

/-- C4: the monthly summary for any year has exactly 12 entries, in
ascending month order 1 through 12; a month with no payroll record for that
year yields the zero-filled entry (totalEmployees 0 and all totals 0). -/
theorem getMonthlySummary_twelve_months (year : Nat) (db : List Payroll) :
    (getMonthlySummary year db).length = 12 ∧
      ∀ i, i < 12 →
        ((getMonthlySummary year db)[i]?).map MonthEntry.month = some (i + 1) ∧
          ((∀ p ∈ db, ¬(p.month = i + 1 ∧ p.year = year)) →
            (getMonthlySummary year db)[i]? = some ⟨i + 1, 0, 0, 0, 0⟩) := by
  refine ⟨by simp [getMonthlySummary], fun i hi => ?_⟩
  have hrange : (List.range 12)[i]? = some i := by
    simp [List.getElem?_range, hi]
  have hentry := List.getElem?_map
    (fun i =>
      let month := i + 1
      let payrolls := db.filter fun p => p.month == month && p.year == year
      (⟨month, payrolls.length,
        payrolls.foldl (fun s p => s + p.basicSalary) 0,
        payrolls.foldl (fun s p => s + p.grossSalary) 0,
        payrolls.foldl (fun s p => s + p.netSalary) 0⟩ : MonthEntry))
    (List.range 12) i
  constructor
  · simp [getMonthlySummary, hentry, hrange]
  · intro hnone
    have hfilter : (db.filter fun p => p.month == i + 1 && p.year == year) = [] := by
      rw [List.filter_eq_nil_iff]
      intro p hp
      have := hnone p hp
      simp only [Bool.and_eq_true, beq_iff_eq]
      tauto
    simp [getMonthlySummary, hentry, hrange, hfilter]

/-- C4 witness: an empty store for year 2025 yields twelve entries and a
zero-filled first month. -/
theorem getMonthlySummary_twelve_months_check :
    (getMonthlySummary 2025 ([] : List Payroll)).length = 12 ∧
      ((getMonthlySummary 2025 ([] : List Payroll))[0]?).map MonthEntry.month = some 1 ∧
      (getMonthlySummary 2025 ([] : List Payroll))[0]? = some ⟨1, 0, 0, 0, 0⟩ := by
  have h := getMonthlySummary_twelve_months 2025 []
  have h0 := h.2 0 (by decide)
  exact ⟨h.1, h0.1, h0.2 (by intro p hp; cases hp)⟩

/-! ## Lemmas for the group-by reports -/

theorem typeUpsert_net_sum (acc : List TypeGroup) (p : TypedPayroll) :
    ((typeUpsert acc p).map TypeGroup.totalNetSalary).sum =
      (acc.map TypeGroup.totalNetSalary).sum + p.netSalary := by
  induction acc with
  | nil => simp [typeUpsert, addRowToTypeGroup, emptyTypeGroup]
  | cons g rest ih =>
    by_cases h : g.employeeType = p.employeeType
    · simp only [typeUpsert, h, if_true, List.map_cons, List.sum_cons, addRowToTypeGroup]
      ring
    · simp only [typeUpsert, h, if_false, List.map_cons, List.sum_cons, ih]
      ring

theorem typeUpsert_count_sum (acc : List TypeGroup) (p : TypedPayroll) :
    ((typeUpsert acc p).map TypeGroup.count).sum =
      (acc.map TypeGroup.count).sum + 1 := by
  induction acc with
  | nil => simp [typeUpsert, addRowToTypeGroup, emptyTypeGroup]
  | cons g rest ih =>
    by_cases h : g.employeeType = p.employeeType
    · simp only [typeUpsert, h, if_true, List.map_cons, List.sum_cons, addRowToTypeGroup]
      omega
    · simp only [typeUpsert, h, if_false, List.map_cons, List.sum_cons, ih]
      omega

theorem foldl_typeUpsert_net_sum (rows : List TypedPayroll) (acc : List TypeGroup) :
    ((rows.foldl typeUpsert acc).map TypeGroup.totalNetSalary).sum =
      (acc.map TypeGroup.totalNetSalary).sum + (rows.map TypedPayroll.netSalary).sum := by
  induction rows generalizing acc with
  | nil => simp
  | cons p rest ih =>
    simp only [List.foldl_cons, ih (typeUpsert acc p), typeUpsert_net_sum,
      List.map_cons, List.sum_cons]
    ring

theorem foldl_typeUpsert_count_sum (rows : List TypedPayroll) (acc : List TypeGroup) :
    ((rows.foldl typeUpsert acc).map TypeGroup.count).sum =
      (acc.map TypeGroup.count).sum + rows.length := by
  induction rows generalizing acc with
  | nil => simp
  | cons p rest ih =>
    simp only [List.foldl_cons, ih (typeUpsert acc p), typeUpsert_count_sum,
      List.length_cons]
    omega

/-- C5: the per-type salary report reconciles with the ungrouped record set —
the per-group `totalNetSalary` values sum to the sum of `netSalary` over all
records, and the per-group counts sum to the number of records. -/
theorem getSalaryReportByType_totals (rows : List TypedPayroll) :
    ((getSalaryReportByType rows).map TypeGroup.totalNetSalary).sum =
        (rows.map TypedPayroll.netSalary).sum ∧
      ((getSalaryReportByType rows).map TypeGroup.count).sum = rows.length := by
  constructor
  · simpa using foldl_typeUpsert_net_sum rows []
  · simpa using foldl_typeUpsert_count_sum rows []

theorem desigUpsert_count_pos (acc : List DesigGroup) (p : DesigRow)
    (h : ∀ g ∈ acc, 1 ≤ g.count) :
    ∀ g ∈ desigUpsert acc p, 1 ≤ g.count := by
  induction acc with
  | nil =>
    intro g hg
    simp only [desigUpsert, List.mem_singleton] at hg
    subst hg
    simp [addRowToDesigGroup, emptyDesigGroup]
  | cons a rest ih =>
    intro g hg
    by_cases ha : a.designation = p.designation
    · simp only [desigUpsert, ha, if_true, List.mem_cons] at hg
      rcases hg with rfl | hg
      · simp only [addRowToDesigGroup]
        omega
      · exact h g (List.mem_cons_of_mem a hg)
    · simp only [desigUpsert, ha, if_false, List.mem_cons] at hg
      rcases hg with rfl | hg
      · exact h _ (List.mem_cons_self _ _)
      · exact ih (fun x hx => h x (List.mem_cons_of_mem a hx)) g hg

theorem foldl_desigUpsert_count_pos (rows : List DesigRow) (acc : List DesigGroup)
    (h : ∀ g ∈ acc, 1 ≤ g.count) :
    ∀ g ∈ rows.foldl desigUpsert acc, 1 ≤ g.count := by
  induction rows generalizing acc with
  | nil => exact h
  | cons p rest ih =>
    exact ih (desigUpsert acc p) (desigUpsert_count_pos acc p h)

/-- C9: every group materialized by the designation report has count ≥ 1, so
its post-aggregation `averageSalary = totalNetSalary / count` never divides
by zero. -/
theorem getDesignationReport_count_pos (rows : List DesigRow) (g : DesigGroup)
    (hg : g ∈ getDesignationReport rows) :
    1 ≤ g.count ∧ g.averageSalary = g.totalNetSalary / (g.count : ℚ) := by
  simp only [getDesignationReport, List.mem_map] at hg
  obtain ⟨g0, hg0, rfl⟩ := hg
  have hc : 1 ≤ g0.count :=
    foldl_desigUpsert_count_pos rows [] (by intro x hx; cases hx) g0 hg0
  exact ⟨hc, rfl⟩

/-- C9 witness: the group built from one concrete row has count 1 and its
average equals its total divided by its count. -/
theorem getDesignationReport_count_pos_check :
    c9Group ∈ getDesignationReport [c9Row] ∧
      1 ≤ c9Group.count ∧
      c9Group.averageSalary = c9Group.totalNetSalary / (c9Group.count : ℚ) :=
  ⟨List.mem_singleton.mpr rfl,
    getDesignationReport_count_pos [c9Row] c9Group (List.mem_singleton.mpr rfl)⟩

/-- C6: single-record mark-as-paid fails with NotFound when no record has the
given id, fails with AlreadyPaid (a client error, not a no-op) when the
record is already PAID — in both cases returning no new state — and
otherwise transitions exactly the targeted record to PAID with the current
time as paid timestamp, leaving every other field and every other record
unchanged. -/
theorem markPayrollAsPaid_spec (id : String) (now : Nat) (db : List Payroll) :
    ((∀ p ∈ db, ¬p.id = id) →
      markPayrollAsPaid id now db = Except.error PayError.NotFound) ∧
    (∀ p, db.find? (fun q => q.id == id) = some p → p.status = PayrollStatus.PAID →
      markPayrollAsPaid id now db = Except.error PayError.AlreadyPaid) ∧
    (∀ p, db.find? (fun q => q.id == id) = some p → ¬p.status = PayrollStatus.PAID →
      markPayrollAsPaid id now db =
          Except.ok (db.map fun q => if q.id == id then payUpdate now q else q,
            payUpdate now p) ∧
        (payUpdate now p).status = PayrollStatus.PAID ∧
        (payUpdate now p).paidAt = some now ∧
        (payUpdate now p).id = p.id ∧
        (payUpdate now p).employeeId = p.employeeId ∧
        (payUpdate now p).month = p.month ∧
        (payUpdate now p).year = p.year ∧
        (payUpdate now p).basicSalary = p.basicSalary ∧
        (payUpdate now p).houseRent = p.houseRent ∧
        (payUpdate now p).medical = p.medical ∧
        (payUpdate now p).transport = p.transport ∧
        (payUpdate now p).education = p.education ∧
        (payUpdate now p).special = p.special ∧
        (payUpdate now p).tax = p.tax ∧
        (payUpdate now p).providentFund = p.providentFund ∧
        (payUpdate now p).insurance = p.insurance ∧
        (payUpdate now p).loan = p.loan ∧
        (payUpdate now p).other = p.other ∧
        (payUpdate now p).grossSalary = p.grossSalary ∧
        (payUpdate now p).netSalary = p.netSalary ∧
        ∀ q ∈ db, ¬q.id = id →
          q ∈ (db.map fun q => if q.id == id then payUpdate now q else q)) := by
  refine ⟨?_, ?_, ?_⟩
  · intro hnone
    have hfind : db.find? (fun q => q.id == id) = none := by
      rw [List.find?_eq_none]
      intro q hq
      simpa using hnone q hq
    simp [markPayrollAsPaid, hfind]
  · intro p hfind hpaid
    simp [markPayrollAsPaid, hfind, hpaid]
  · intro p hfind hnp
    refine ⟨by simp [markPayrollAsPaid, hfind, hnp], rfl, rfl, rfl, rfl, rfl, rfl, rfl,
      rfl, rfl, rfl, rfl, rfl, rfl, rfl, rfl, rfl, rfl, rfl, rfl, ?_⟩
    intro q hq hqid
    have hif : (if q.id == id then payUpdate now q else q) = q := by
      simp [hqid]
    have hmem := List.mem_map_of_mem (fun x => if x.id == id then payUpdate now x else x) hq
    simp only at hmem
    rwa [hif] at hmem

/-- C6 witness: on a concrete store, an unknown id gives NotFound, a PAID id
gives AlreadyPaid, and a PENDING id is transitioned to PAID at the call
time. -/
theorem markPayrollAsPaid_spec_check :
    markPayrollAsPaid "ghost" 9 payDb = Except.error PayError.NotFound ∧
      markPayrollAsPaid "p2" 9 payDb = Except.error PayError.AlreadyPaid ∧
      markPayrollAsPaid "p1" 9 payDb =
        Except.ok (payDb.map fun q => if q.id == "p1" then payUpdate 9 q else q,
          payUpdate 9 pendingPayroll) ∧
      (payUpdate 9 pendingPayroll).status = PayrollStatus.PAID ∧
      (payUpdate 9 pendingPayroll).paidAt = some 9 :=
  ⟨(markPayrollAsPaid_spec "ghost" 9 payDb).1 (by decide),
    (markPayrollAsPaid_spec "p2" 9 payDb).2.1 paidPayroll rfl rfl,
    ((markPayrollAsPaid_spec "p1" 9 payDb).2.2 pendingPayroll rfl (by decide)).1,
    ((markPayrollAsPaid_spec "p1" 9 payDb).2.2 pendingPayroll rfl (by decide)).2.1,
    ((markPayrollAsPaid_spec "p1" 9 payDb).2.2 pendingPayroll rfl (by decide)).2.2.1⟩

/-- C7: bulk mark-as-paid on a non-empty id list succeeds with one
`updateMany`: a stored record is transitioned exactly when its id is listed
and its status is PENDING, every transition sets status PAID and the shared
timestamp, non-matching records (missing or already PAID) are left as they
are with no per-id error, and the returned count is the number of matched —
hence transitioned — records. -/
theorem bulkMarkAsPaid_spec (ids : List String) (now : Nat) (db : List Payroll)
    (h : ids ≠ []) :
    bulkMarkAsPaid (some ids) now db =
        Except.ok (db.map (bulkTransition ids now), (db.filter (bulkEligible ids)).length) ∧
      (∀ p, bulkEligible ids p = true ↔ (p.id ∈ ids ∧ p.status = PayrollStatus.PENDING)) ∧
      (∀ p, bulkEligible ids p = true →
        bulkTransition ids now p = payUpdate now p ∧
          (bulkTransition ids now p).status = PayrollStatus.PAID ∧
          (bulkTransition ids now p).paidAt = some now) ∧
      (∀ p, bulkEligible ids p = false → bulkTransition ids now p = p) := by
  have hlen : (ids.length == 0) = false := by
    cases ids with
    | nil => exact absurd rfl h
    | cons a l => rfl
  refine ⟨by simp [bulkMarkAsPaid, hlen], ?_, ?_, ?_⟩
  · intro p
    simp [bulkEligible]
  · intro p hp
    simp [bulkTransition, hp, payUpdate]
  · intro p hp
    simp [bulkTransition, hp]

/-- C7 witness: on a concrete store, the listed PENDING record is
transitioned, the listed-but-missing id and the already-PAID record are
silently ignored, and the count is 1. -/
theorem bulkMarkAsPaid_spec_check :
    bulkMarkAsPaid (some ["p1", "p2", "ghost"]) 9 payDb =
        Except.ok (payDb.map (bulkTransition ["p1", "p2", "ghost"] 9),
          (payDb.filter (bulkEligible ["p1", "p2", "ghost"])).length) ∧
      (payDb.filter (bulkEligible ["p1", "p2", "ghost"])).length = 1 ∧
      bulkEligible ["p1", "p2", "ghost"] pendingPayroll = true ∧
      bulkEligible ["p1", "p2", "ghost"] paidPayroll = false ∧
      (bulkTransition ["p1", "p2", "ghost"] 9 pendingPayroll).status = PayrollStatus.PAID ∧
      (bulkTransition ["p1", "p2", "ghost"] 9 pendingPayroll).paidAt = some 9 ∧
      bulkTransition ["p1", "p2", "ghost"] 9 paidPayroll = paidPayroll :=
  ⟨(bulkMarkAsPaid_spec ["p1", "p2", "ghost"] 9 payDb (by decide)).1,
    rfl, rfl, rfl,
    ((bulkMarkAsPaid_spec ["p1", "p2", "ghost"] 9 payDb (by decide)).2.2.1
      pendingPayroll rfl).2.1,
    ((bulkMarkAsPaid_spec ["p1", "p2", "ghost"] 9 payDb (by decide)).2.2.1
      pendingPayroll rfl).2.2,
    (bulkMarkAsPaid_spec ["p1", "p2", "ghost"] 9 payDb (by decide)).2.2.2
      paidPayroll rfl⟩

end PayrollSystem
